import Mathlib

/-!
Verification of the Dino multiplayer game server core.

A shallow embedding of the Go backend of the 1v1 Dino game
(`internal/ws/handler.go`, `internal/ws/hub.go`, `internal/game/matchmaker.go`)
together with proofs of the spec's claims about matchmaking, score relay,
anti-cheat validation and session resolution.

The hub registry is modelled as a list of clients (Go iterates a map in an
unspecified order, so order-sensitive claims are proven for both enumeration
orders of a two-client room).  Network sends, leaderboard writes and
matchmaking enqueues are pure effects collected in an `Effects` record.
Scores are `Int`; the one place Go's 64-bit `int` arithmetic can overflow —
the anti-cheat subtraction `payload.Score - client.Score` — is modelled
with an explicit two's-complement wrap (`wrapInt64`), so the model agrees
with the code even on payloads at the edges of the int64 range.
-/

/-- A live network peer, mirroring the fields of `ws.Client` that the
handlers in `handler.go`, `hub.go` and `matchmaker.go` read and write:
`ID`, `Name`, `RoomID`, `InQueue`, `IsAlive`, `Score`. -/
structure Client where
  id : String
  name : String
  roomId : String
  inQueue : Bool
  isAlive : Bool
  score : Int
deriving DecidableEq

/-- Server → client messages (`GAME_START`, `OPPONENT_UPDATE`,
`OPPONENT_LEFT`, `GAME_OVER`) with the payload fields built in
`handler.go` and `matchmaker.go`. -/
inductive ServerMsg where
  | gameStart (roomId : String) (seed : Int)
      (myId myName opponentId opponentName : String)
  | opponentUpdate (score : Int) (isAlive : Bool)
  | opponentLeft (score : Int) (isAlive : Bool)
  | gameOver (winnerId : String) (reason : String)
deriving DecidableEq

/-- Client → server messages handled by `handleMessage` in `handler.go`.
A `joinQueue` whose payload failed to parse behaves like
`joinQueue client.ID`, which the model obtains as the `name = ""`
fallback, so only well-parsed payloads are represented. -/
inductive ClientMsg where
  | joinQueue (name : String)
  | updateScore (score : Int)
  | playerDied (score : Int)
  | leaveGame
deriving DecidableEq

/-- The observable side effects of one handler invocation:
`sent` records `SendJSON` calls as (recipient id, message),
`saved` records `db.SaveScore` calls as (player id, name, score),
`enqueued` records `matchmaker.AddToQueue` calls by client id. -/
structure Effects where
  sent : List (String × ServerMsg)
  saved : List (String × String × Int)
  enqueued : List String
deriving DecidableEq

def Effects.empty : Effects := ⟨[], [], []⟩

/-- Lookup by identifier: `Hub.GetClient` in `hub.go`. -/
def getClient (cs : List Client) (cid : String) : Option Client :=
  cs.find? (fun c => c.id == cid)

/-- In-place mutation of the client with identifier `cid` through a
pointer, as the Go handlers do (`client.Score = ...` etc.). -/
def updateClient (cs : List Client) (cid : String) (f : Client → Client) :
    List Client :=
  cs.map (fun c => if c.id == cid then f c else c)

/-- Room scan `Hub.GetClientsInRoom` in `hub.go`: every registered client whose
`RoomID` equals the argument — including, when called with `""`, every
client that is in no room. -/
def getClientsInRoom (cs : List Client) (roomID : String) : List Client :=
  cs.filter (fun c => c.roomId == roomID)

/-- Fan-out `notifyOpponent` in `handler.go`: send `m` to every client sharing the
sender's room, except the sender itself. -/
def notifyOpponent (cs : List Client) (client : Client) (m : ServerMsg) :
    List (String × ServerMsg) :=
  ((getClientsInRoom cs client.roomId).filter
      (fun c => c.id != client.id)).map (fun c => (c.id, m))

/-- Two's-complement wrap to a signed 64-bit integer: Go's `int` is 64
bits and its subtraction wraps, so `payload.Score - client.Score` in the
anti-cheat gate is this function applied to the exact difference.  The
numerals are `2^63` and `2^64`. -/
def wrapInt64 (n : Int) : Int :=
  (n + 9223372036854775808) % 18446744073709551616 - 9223372036854775808

/-- One iteration of the winner loop of the `PLAYER_DIED` case
(`handler.go`): `acc` carries the current `winner` pointer and the
`isDraw` flag. -/
def winnerStep (acc : Option Client × Bool) (c : Client) : Option Client × Bool :=
  match acc.1 with
  | none => (some c, acc.2)
  | some w =>
    if c.score > w.score then (some c, false)
    else if c.score == w.score then (some w, true)
    else acc

/-- The winner loop of the `PLAYER_DIED` case (`handler.go`): a left fold
of `winnerStep` starting from `winner = nil`, `isDraw = false`. -/
def computeWinner (roomClients : List Client) : Option Client × Bool :=
  roomClients.foldl winnerStep (none, false)

/-- Dispatcher `handleMessage` in `handler.go`: dispatch one inbound message from the
connection with identifier `cid`, returning the new registry state and
the collected effects. -/
def handleMessage (cs : List Client) (cid : String) (msg : ClientMsg) :
    List Client × Effects :=
  match getClient cs cid with
  | none => (cs, Effects.empty)
  | some client =>
    match msg with
    | .joinQueue name =>
      if !client.inQueue && client.roomId == "" then
        let newName := if name != "" then name else client.id
        (updateClient cs cid (fun c => { c with name := newName, inQueue := true }),
         { Effects.empty with enqueued := [client.id] })
      else
        (cs, Effects.empty)
    | .updateScore score =>
      if wrapInt64 (score - client.score) > 50 then
        -- anti-cheat rejection: no state change, re-notify opponent with
        -- the last accepted score and the current alive flag
        (cs, { Effects.empty with
                 sent := notifyOpponent cs client
                   (.opponentUpdate client.score client.isAlive) })
      else
        let cs' := updateClient cs cid (fun c => { c with score := score })
        (cs', { Effects.empty with
                  sent := notifyOpponent cs' { client with score := score }
                    (.opponentUpdate score client.isAlive) })
    | .playerDied score =>
      let cs' := updateClient cs cid
        (fun c => { c with score := score, isAlive := false })
      let client' := { client with score := score, isAlive := false }
      let deathNotifs := notifyOpponent cs' client' (.opponentUpdate score false)
      let roomClients := getClientsInRoom cs' client'.roomId
      let allDead := roomClients.all (fun c => !c.isAlive)
      if allDead then
        let wd := computeWinner roomClients
        let gameOverMsgs := roomClients.map (fun c =>
          (c.id,
           if wd.2 then ServerMsg.gameOver "" "draw"
           else ServerMsg.gameOver ((wd.1.map Client.id).getD "")
                  "all_players_died"))
        let saves := roomClients.map (fun c => (c.id, c.name, c.score))
        let csFinal := cs'.map (fun c =>
          if c.roomId == client'.roomId then
            { c with roomId := "", isAlive := true, score := 0 }
          else c)
        (csFinal, { sent := deathNotifs ++ gameOverMsgs, saved := saves,
                    enqueued := [] })
      else
        (cs', { Effects.empty with sent := deathNotifs })
    | .leaveGame =>
      if client.roomId == "" then
        (cs, Effects.empty)
      else
        let saves := [(client.id, client.name, client.score)]
        let notifs := notifyOpponent cs client
          (.opponentLeft client.score false)
        let cs' := updateClient cs cid (fun c =>
          { c with roomId := "", isAlive := true, score := 0, inQueue := false })
        (cs', { sent := notifs, saved := saves, enqueued := [] })

/-- The per-player assignments done at the top of `Matchmaker.createMatch`
(`matchmaker.go`): room id set, in-queue cleared, alive, score zeroed. -/
def assignRoom (roomID : String) (c : Client) : Client :=
  { c with roomId := roomID, inQueue := false, isAlive := true, score := 0 }

/-- Pairing `Matchmaker.createMatch` in `matchmaker.go`: mutate both paired clients,
then send each a `GAME_START` built from the (mutated) clients' identities,
the fresh room id and the shared seed. -/
def createMatch (player1 player2 : Client) (roomID : String) (seed : Int) :
    Client × Client × List (String × ServerMsg) :=
  let q1 := assignRoom roomID player1
  let q2 := assignRoom roomID player2
  (q1, q2,
   [(q1.id, .gameStart roomID seed q1.id q1.name q2.id q2.name),
    (q2.id, .gameStart roomID seed q2.id q2.name q1.id q1.name)])

/-- The effect of a `createMatch` on the registry, addressed by the paired
clients' identifiers. -/
def stepMatched (cs : List Client) (p1 p2 roomID : String) (seed : Int) :
    List Client × Effects :=
  match getClient cs p1, getClient cs p2 with
  | some c1, some c2 =>
    let m := createMatch c1 c2 roomID seed
    (updateClient (updateClient cs p1 (fun c => assignRoom roomID c)) p2
       (fun c => assignRoom roomID c),
     { Effects.empty with sent := m.2.2 })
  | _, _ => (cs, Effects.empty)

/-- One event of the server: either an inbound client message dispatched
to `handleMessage`, or the matchmaker pairing two queued clients. -/
inductive Ev where
  | msg (cid : String) (m : ClientMsg)
  | matched (p1 p2 roomId : String) (seed : Int)

/-- One step of the server on an event. -/
def step (cs : List Client) : Ev → List Client × Effects
  | .msg cid m => handleMessage cs cid m
  | .matched p1 p2 r s => stepMatched cs p1 p2 r s

/-- Run a sequence of events, returning the final registry state. -/
def runState (cs : List Client) : List Ev → List Client
  | [] => cs
  | e :: rest => runState (step cs e).1 rest

/-- The pairing loop of `Matchmaker.Run` (`matchmaker.go`): process the
arrival sequence against the single nullable `waiting` slot; an arrival
finding the slot empty is stored, an arrival finding it occupied is
paired with the stored client and the slot cleared. Returns the created
sessions in creation order. -/
def runQueue {α : Type} : List α → Option α → List (α × α)
  | [], _ => []
  | c :: rest, none => runQueue rest (some c)
  | c :: rest, some w => (w, c) :: runQueue rest none

/-- A pair of clients registered but in no room (`RoomID = ""`), as after
a fresh websocket handshake: the failing input for the missing
room-membership guard. -/
def roomlessPair : List Client :=
  [⟨"a", "A", "", false, true, 0⟩, ⟨"b", "B", "", false, true, 0⟩]

/-- A two-client room in which `a` is already dead and `b` is still
alive with the same score `a` died at: the input on which the second
death resolves to a draw. -/
def drawRoom : List Client :=
  [⟨"a", "A", "r", false, false, 5⟩, ⟨"b", "B", "r", false, true, 0⟩]

/-- The state of a connection right after a successful `JOIN_QUEUE`:
registered, `InQueue` set, no room assigned.  Only a pairing event for
this very connection can leave this set of states, which is what makes
re-enqueueing impossible before a match. -/
def joinInv (cid : String) (cs : List Client) : Prop :=
  ∃ c, getClient cs cid = some c ∧ c.inQueue = true ∧ c.roomId = ""

/-! Basic lemmas about the registry operations -/

lemma wrapInt64_eq_self {n : Int} (h1 : -9223372036854775808 ≤ n)
    (h2 : n < 9223372036854775808) : wrapInt64 n = n := by
  unfold wrapInt64
  omega

lemma getClient_some_id {cs : List Client} {cid : String} {c : Client}
    (h : getClient cs cid = some c) : c.id = cid := by
  have := List.find?_some h
  simpa using this

lemma getClient_map (cs : List Client) (g : Client → Client)
    (hg : ∀ c, (g c).id = c.id) (cid : String) :
    getClient (cs.map g) cid = (getClient cs cid).map g := by
  induction cs with
  | nil => rfl
  | cons a rest ih =>
      by_cases h : a.id = cid
      · simp [getClient, List.find?_cons, hg, h]
      · simp only [List.map_cons, getClient, List.find?_cons] at *
        have h1 : ((g a).id == cid) = false := by simp [hg, h]
        have h2 : (a.id == cid) = false := by simp [h]
        rw [h1, h2]
        exact ih

lemma getClient_updateClient (cs : List Client) (cid did : String)
    (f : Client → Client) (hf : ∀ c, (f c).id = c.id) :
    getClient (updateClient cs did f) cid =
      (getClient cs cid).map (fun c => if c.id == did then f c else c) := by
  apply getClient_map
  intro c
  dsimp only
  split
  · exact hf c
  · rfl

lemma mem_map_id_preserved {cs : List Client} (g : Client → Client)
    (hg : ∀ c, (g c).id = c.id) {c : Client} (hc : c ∈ cs.map g) :
    ∃ c0 ∈ cs, c.id = c0.id := by
  rcases List.mem_map.mp hc with ⟨c0, hc0, rfl⟩
  exact ⟨c0, hc0, hg c0⟩

/-! Lemmas about the winner fold -/

lemma winnerStep_fst (acc : Option Client × Bool) (c : Client) :
    (winnerStep acc c).1 = some c ∨ (winnerStep acc c).1 = acc.1 := by
  rcases acc with ⟨w?, d⟩
  rcases w? with _ | w
  · left; rfl
  · dsimp [winnerStep]
    by_cases h1 : c.score > w.score
    · rw [if_pos h1]; left; rfl
    · rw [if_neg h1]
      by_cases h2 : (c.score == w.score) = true
      · rw [if_pos h2]; right; rfl
      · rw [if_neg h2]; right; rfl

lemma winnerStep_fst_isSome (acc : Option Client × Bool) (c : Client) :
    (winnerStep acc c).1.isSome = true := by
  rcases acc with ⟨w?, d⟩
  rcases w? with _ | w
  · rfl
  · dsimp [winnerStep]
    by_cases h1 : c.score > w.score
    · rw [if_pos h1]; rfl
    · rw [if_neg h1]
      by_cases h2 : (c.score == w.score) = true
      · rw [if_pos h2]; rfl
      · rw [if_neg h2]; rfl

lemma foldl_winnerStep_mem :
    ∀ (rc : List Client) (acc : Option Client × Bool) (w : Client),
      (rc.foldl winnerStep acc).1 = some w → w ∈ rc ∨ acc.1 = some w := by
  intro rc
  induction rc with
  | nil => intro acc w h; exact Or.inr h
  | cons a rest ih =>
      intro acc w h
      rw [List.foldl_cons] at h
      rcases ih (winnerStep acc a) w h with hmem | hacc
      · exact Or.inl (List.mem_cons_of_mem _ hmem)
      · rcases winnerStep_fst acc a with he | he
        · rw [he] at hacc
          have : a = w := by injection hacc
          exact Or.inl (this ▸ List.mem_cons_self _ _)
        · rw [he] at hacc
          exact Or.inr hacc

lemma foldl_winnerStep_isSome :
    ∀ (rc : List Client) (acc : Option Client × Bool),
      acc.1.isSome = true → ((rc.foldl winnerStep acc).1).isSome = true := by
  intro rc
  induction rc with
  | nil => intro acc h; exact h
  | cons a rest ih =>
      intro acc h
      rw [List.foldl_cons]
      exact ih (winnerStep acc a) (winnerStep_fst_isSome acc a)

lemma computeWinner_some_mem {rc : List Client} (h : rc ≠ []) :
    ∃ w, (computeWinner rc).1 = some w ∧ w ∈ rc := by
  rcases rc with _ | ⟨a, rest⟩
  · exact absurd rfl h
  · have hsome : ((computeWinner (a :: rest)).1).isSome = true := by
      unfold computeWinner
      rw [List.foldl_cons]
      exact foldl_winnerStep_isSome rest (winnerStep (none, false) a)
        (winnerStep_fst_isSome (none, false) a)
    rcases Option.isSome_iff_exists.mp hsome with ⟨w, hw⟩
    refine ⟨w, hw, ?_⟩
    rcases foldl_winnerStep_mem (a :: rest) (none, false) w hw with hm | habs
    · exact hm
    · simp at habs

/-! Exact evaluation of `PLAYER_DIED` on a two-client room, in both
enumeration orders of the registry -/

lemma playerDied_first_xy (x y : Client) (sx : Int)
    (hroom : x.roomId = y.roomId) (hya : y.isAlive = true) (hid : x.id ≠ y.id) :
    handleMessage [x, y] x.id (.playerDied sx) =
      ([{ x with score := sx, isAlive := false }, y],
       { Effects.empty with sent := [(y.id, .opponentUpdate sx false)] }) := by
  have hyx : ¬ (y.id = x.id) := fun h => hid h.symm
  have hyx2 : (y.id == x.id) = false := by simp [hyx]
  simp [handleMessage, getClient, updateClient, getClientsInRoom, notifyOpponent,
        List.find?, hyx, hyx2, hroom, hya, Effects.empty]

lemma playerDied_first_yx (x y : Client) (sx : Int)
    (hroom : x.roomId = y.roomId) (hya : y.isAlive = true) (hid : x.id ≠ y.id) :
    handleMessage [y, x] x.id (.playerDied sx) =
      ([y, { x with score := sx, isAlive := false }],
       { Effects.empty with sent := [(y.id, .opponentUpdate sx false)] }) := by
  have hyx : ¬ (y.id = x.id) := fun h => hid h.symm
  have hyx2 : (y.id == x.id) = false := by simp [hyx]
  simp [handleMessage, getClient, updateClient, getClientsInRoom, notifyOpponent,
        List.find?, hyx, hyx2, hroom, hya, Effects.empty]

lemma playerDied_second_xy (x y : Client) (sy : Int)
    (hxa : x.isAlive = false) (hroom : x.roomId = y.roomId) (hid : x.id ≠ y.id) :
    handleMessage [x, y] y.id (.playerDied sy) =
      ([{ x with roomId := "", isAlive := true, score := 0 },
        { y with roomId := "", isAlive := true, score := 0 }],
       { sent := [(x.id, .opponentUpdate sy false),
                  (x.id, if sy > x.score then ServerMsg.gameOver y.id "all_players_died"
                         else if sy = x.score then ServerMsg.gameOver "" "draw"
                         else ServerMsg.gameOver x.id "all_players_died"),
                  (y.id, if sy > x.score then ServerMsg.gameOver y.id "all_players_died"
                         else if sy = x.score then ServerMsg.gameOver "" "draw"
                         else ServerMsg.gameOver x.id "all_players_died")],
         saved := [(x.id, x.name, x.score), (y.id, y.name, sy)],
         enqueued := [] }) := by
  have hxy2 : (x.id == y.id) = false := by simp [hid]
  rcases lt_trichotomy sy x.score with hlt | heq | hgt
  · have h1 : ¬ (sy > x.score) := by omega
    have h2 : (sy == x.score) = false := by simp; omega
    have h2' : ¬ (sy = x.score) := by omega
    simp [handleMessage, getClient, updateClient, getClientsInRoom, notifyOpponent,
          computeWinner, winnerStep, List.find?, hxy2, hid, hroom, hxa,
          h1, h2, h2', Effects.empty]
  · have h1 : ¬ (sy > x.score) := by omega
    simp [handleMessage, getClient, updateClient, getClientsInRoom, notifyOpponent,
          computeWinner, winnerStep, List.find?, hxy2, hid, hroom, hxa,
          h1, heq, Effects.empty]
  · have h2 : (sy == x.score) = false := by simp; omega
    simp [handleMessage, getClient, updateClient, getClientsInRoom, notifyOpponent,
          computeWinner, winnerStep, List.find?, hxy2, hid, hroom, hxa,
          hgt, h2, Effects.empty]

lemma playerDied_second_yx (x y : Client) (sy : Int)
    (hxa : x.isAlive = false) (hroom : x.roomId = y.roomId) (hid : x.id ≠ y.id) :
    handleMessage [y, x] y.id (.playerDied sy) =
      ([{ y with roomId := "", isAlive := true, score := 0 },
        { x with roomId := "", isAlive := true, score := 0 }],
       { sent := [(x.id, .opponentUpdate sy false),
                  (y.id, if sy > x.score then ServerMsg.gameOver y.id "all_players_died"
                         else if sy = x.score then ServerMsg.gameOver "" "draw"
                         else ServerMsg.gameOver x.id "all_players_died"),
                  (x.id, if sy > x.score then ServerMsg.gameOver y.id "all_players_died"
                         else if sy = x.score then ServerMsg.gameOver "" "draw"
                         else ServerMsg.gameOver x.id "all_players_died")],
         saved := [(y.id, y.name, sy), (x.id, x.name, x.score)],
         enqueued := [] }) := by
  have hxy2 : (x.id == y.id) = false := by simp [hid]
  rcases lt_trichotomy sy x.score with hlt | heq | hgt
  · have h1 : ¬ (sy > x.score) := by omega
    have h1' : x.score > sy := by omega
    have h2 : (sy == x.score) = false := by simp; omega
    have h2' : ¬ (sy = x.score) := by omega
    have h3 : (x.score == sy) = false := by simp; omega
    simp [handleMessage, getClient, updateClient, getClientsInRoom, notifyOpponent,
          computeWinner, winnerStep, List.find?, hxy2, hid, hroom, hxa,
          h1, h1', h2, h2', h3, Effects.empty]
  · have h1 : ¬ (sy > x.score) := by omega
    have h1' : ¬ (x.score > sy) := by omega
    have h3 : (x.score == sy) = true := by simp; omega
    simp [handleMessage, getClient, updateClient, getClientsInRoom, notifyOpponent,
          computeWinner, winnerStep, List.find?, hxy2, hid, hroom, hxa,
          h1, h1', h3, heq, Effects.empty]
  · have h1' : ¬ (x.score > sy) := by omega
    have h2' : ¬ (sy = x.score) := by omega
    have h3 : (x.score == sy) = false := by simp; omega
    simp [handleMessage, getClient, updateClient, getClientsInRoom, notifyOpponent,
          computeWinner, winnerStep, List.find?, hxy2, hid, hroom, hxa,
          hgt, h1', h2', h3, Effects.empty]

/-- Claim C1: in a two-participant session, processing the two `PLAYER_DIED`
messages sequentially (in either death order — `x` and `y` are arbitrary —
and under either registry enumeration order) emits the `GAME_OVER`
resolution exactly once, at the second death: the first death only sends
the opponent an `OPPONENT_UPDATE` (no `GAME_OVER`, nothing persisted, the
session stays active), and the second death sends each participant exactly
one `GAME_OVER`, persists both final scores, and resets both connections'
room identifier, score and alive flag. -/
theorem both_deaths_resolve_once (x y : Client) (sx sy : Int)
    (hxa : x.isAlive = true) (hya : y.isAlive = true)
    (hroom : x.roomId = y.roomId) (hr : y.roomId ≠ "") (hid : x.id ≠ y.id) :
    -- registry enumeration order [x, y]
    ((handleMessage [x, y] x.id (.playerDied sx)).2 =
        { Effects.empty with sent := [(y.id, .opponentUpdate sx false)] } ∧
     (handleMessage [x, y] x.id (.playerDied sx)).1 =
        [{ x with score := sx, isAlive := false }, y] ∧
     (∃ w reason,
        (handleMessage (handleMessage [x, y] x.id (.playerDied sx)).1 y.id
            (.playerDied sy)).2.sent =
          [(x.id, .opponentUpdate sy false),
           (x.id, .gameOver w reason), (y.id, .gameOver w reason)]) ∧
     (handleMessage (handleMessage [x, y] x.id (.playerDied sx)).1 y.id
        (.playerDied sy)).2.saved =
        [(x.id, x.name, sx), (y.id, y.name, sy)] ∧
     (handleMessage (handleMessage [x, y] x.id (.playerDied sx)).1 y.id
        (.playerDied sy)).1 =
        [{ x with roomId := "", isAlive := true, score := 0 },
         { y with roomId := "", isAlive := true, score := 0 }]) ∧
    -- registry enumeration order [y, x]
    ((handleMessage [y, x] x.id (.playerDied sx)).2 =
        { Effects.empty with sent := [(y.id, .opponentUpdate sx false)] } ∧
     (handleMessage [y, x] x.id (.playerDied sx)).1 =
        [y, { x with score := sx, isAlive := false }] ∧
     (∃ w reason,
        (handleMessage (handleMessage [y, x] x.id (.playerDied sx)).1 y.id
            (.playerDied sy)).2.sent =
          [(x.id, .opponentUpdate sy false),
           (y.id, .gameOver w reason), (x.id, .gameOver w reason)]) ∧
     (handleMessage (handleMessage [y, x] x.id (.playerDied sx)).1 y.id
        (.playerDied sy)).2.saved =
        [(y.id, y.name, sy), (x.id, x.name, sx)] ∧
     (handleMessage (handleMessage [y, x] x.id (.playerDied sx)).1 y.id
        (.playerDied sy)).1 =
        [{ y with roomId := "", isAlive := true, score := 0 },
         { x with roomId := "", isAlive := true, score := 0 }]) := by
  have h1 := playerDied_first_xy x y sx hroom hya hid
  have h1' := playerDied_first_yx x y sx hroom hya hid
  have h2 := playerDied_second_xy { x with score := sx, isAlive := false } y sy
    rfl hroom hid
  have h2' := playerDied_second_yx { x with score := sx, isAlive := false } y sy
    rfl hroom hid
  refine ⟨⟨?_, ?_, ?_, ?_, ?_⟩, ?_, ?_, ?_, ?_, ?_⟩
  · rw [h1]
  · rw [h1]
  · simp only [h1, h2]
    rcases lt_trichotomy sy sx with hlt | heq | hgt
    · have hA : ¬ (sy > sx) := by omega
      have hB : ¬ (sy = sx) := by omega
      exact ⟨x.id, "all_players_died", by simp [hA, hB]⟩
    · have hA : ¬ (sy > sx) := by omega
      exact ⟨"", "draw", by simp [hA, heq]⟩
    · have hA : (sy > sx) := hgt
      exact ⟨y.id, "all_players_died", by simp [hA]⟩
  · simp only [h1, h2]
  · simp only [h1, h2]
  · rw [h1']
  · rw [h1']
  · simp only [h1', h2']
    rcases lt_trichotomy sy sx with hlt | heq | hgt
    · have hA : ¬ (sy > sx) := by omega
      have hB : ¬ (sy = sx) := by omega
      exact ⟨x.id, "all_players_died", by simp [hA, hB]⟩
    · have hA : ¬ (sy > sx) := by omega
      exact ⟨"", "draw", by simp [hA, heq]⟩
    · have hA : (sy > sx) := hgt
      exact ⟨y.id, "all_players_died", by simp [hA]⟩
  · simp only [h1', h2']
  · simp only [h1', h2']

/-- Claim C5: in the both-dead resolution of a two-participant room, the
winner is determined by comparing exactly the two participants' scores:
every `GAME_OVER` emitted names the strictly-higher scorer as `winnerId`,
equal scores yield `winnerId = ""` (a draw, with reason `"draw"`), the
outcome formula is symmetric in the participants (hence independent of
which death is processed second), and it is the same for both registry
enumeration orders; both participants receive the payload. -/
theorem winner_highest_score (x y : Client) (sy : Int)
    (hxa : x.isAlive = false) (hroom : x.roomId = y.roomId) (hr : y.roomId ≠ "")
    (hid : x.id ≠ y.id) (cs : List Client) (hcs : cs = [x, y] ∨ cs = [y, x]) :
    (∀ rid w reason,
        (rid, ServerMsg.gameOver w reason) ∈
            (handleMessage cs y.id (.playerDied sy)).2.sent →
        w = (if x.score > sy then x.id else if sy > x.score then y.id else "") ∧
          (reason = "draw" ↔ x.score = sy)) ∧
    (∃ reason,
        (x.id, ServerMsg.gameOver
            (if x.score > sy then x.id else if sy > x.score then y.id else "")
            reason) ∈ (handleMessage cs y.id (.playerDied sy)).2.sent ∧
        (y.id, ServerMsg.gameOver
            (if x.score > sy then x.id else if sy > x.score then y.id else "")
            reason) ∈ (handleMessage cs y.id (.playerDied sy)).2.sent) := by
  have hbase : (handleMessage cs y.id (.playerDied sy)).2.sent =
      (handleMessage [x, y] y.id (.playerDied sy)).2.sent ∨
      (handleMessage cs y.id (.playerDied sy)).2.sent =
      (handleMessage [y, x] y.id (.playerDied sy)).2.sent := by
    rcases hcs with rfl | rfl
    · exact Or.inl rfl
    · exact Or.inr rfl
  have h2 := playerDied_second_xy x y sy hxa hroom hid
  have h2' := playerDied_second_yx x y sy hxa hroom hid
  rcases hbase with hb | hb <;>
    [rw [h2] at hb; rw [h2'] at hb] <;>
    rcases lt_trichotomy sy x.score with hlt | heq | hgt <;>
    [skip; skip; skip; skip; skip; skip] <;>
    first
    | ( -- case sy < x.score : x wins
       have hA : ¬ (sy > x.score) := by omega
       have hB : ¬ (sy = x.score) := by omega
       have hB' : ¬ (x.score = sy) := by omega
       have hC : x.score > sy := by omega
       refine ⟨?_, "all_players_died", ?_, ?_⟩
       · intro rid w reason hmem
         rw [hb] at hmem
         simp [hA, hB] at hmem
         rcases hmem with ⟨-, hw, hre⟩ | ⟨-, hw, hre⟩ <;> subst hw <;> subst hre <;>
           simp [hC, hB']
       · rw [hb]; simp [hA, hB, hC]
       · rw [hb]; simp [hA, hB, hC])
    | ( -- case sy = x.score : draw
       have hA : ¬ (sy > x.score) := by omega
       have hC : ¬ (x.score > sy) := by omega
       have hEq : x.score = sy := heq.symm
       refine ⟨?_, "draw", ?_, ?_⟩
       · intro rid w reason hmem
         rw [hb] at hmem
         simp [hA, heq] at hmem
         rcases hmem with ⟨-, hw, hre⟩ | ⟨-, hw, hre⟩ <;> subst hw <;> subst hre <;>
           simp [hA, hC, hEq]
       · rw [hb]; simp [hA, hC, heq]
       · rw [hb]; simp [hA, hC, heq])
    | ( -- case sy > x.score : y wins
       have hC : ¬ (x.score > sy) := by omega
       have hB' : ¬ (x.score = sy) := by omega
       refine ⟨?_, "all_players_died", ?_, ?_⟩
       · intro rid w reason hmem
         rw [hb] at hmem
         simp [hgt] at hmem
         rcases hmem with ⟨-, hw, hre⟩ | ⟨-, hw, hre⟩ <;> subst hw <;> subst hre <;>
           simp [hgt, hC, hB']
       · rw [hb]; simp [hgt, hC]
       · rw [hb]; simp [hgt, hC])

/-- Claim C2, amended: an `UPDATE_SCORE` report `p` exceeding the last
accepted score `S` by more than 50, with the difference `p - S`
representable in int64 (no positive overflow of Go's wrapping
subtraction), is dropped: the registry is unchanged (stored score stays
`S`), the opponent is re-sent an `OPPONENT_UPDATE` carrying `S` and the
sender's current alive flag, nothing is persisted or enqueued, and no
message of any kind is sent back to the sender — in both registry
enumeration orders.  Without the no-overflow bound the claim is false:
see `update_score_wrap_counterexample`. -/
theorem update_score_rejected (a b : Client) (p : Int)
    (hroom : a.roomId = b.roomId) (hid : a.id ≠ b.id)
    (hp : p > a.score + 50) (hnoof : p - a.score < 9223372036854775808) :
    handleMessage [a, b] a.id (.updateScore p) =
      ([a, b], { Effects.empty with
                   sent := [(b.id, .opponentUpdate a.score a.isAlive)] }) ∧
    handleMessage [b, a] a.id (.updateScore p) =
      ([b, a], { Effects.empty with
                   sent := [(b.id, .opponentUpdate a.score a.isAlive)] }) ∧
    (∀ m : ServerMsg,
        (a.id, m) ∉ (handleMessage [a, b] a.id (.updateScore p)).2.sent ∧
        (a.id, m) ∉ (handleMessage [b, a] a.id (.updateScore p)).2.sent) := by
  have hba : ¬ (b.id = a.id) := fun h => hid h.symm
  have hba2 : (b.id == a.id) = false := by simp [hba]
  have hwr : wrapInt64 (p - a.score) = p - a.score :=
    wrapInt64_eq_self (by omega) hnoof
  have hcheat : wrapInt64 (p - a.score) > 50 := by rw [hwr]; omega
  have e1 : handleMessage [a, b] a.id (.updateScore p) =
      ([a, b], { Effects.empty with
                   sent := [(b.id, .opponentUpdate a.score a.isAlive)] }) := by
    simp [handleMessage, getClient, updateClient, getClientsInRoom, notifyOpponent,
          List.find?, hba, hba2, hroom, hcheat, Effects.empty]
  have e2 : handleMessage [b, a] a.id (.updateScore p) =
      ([b, a], { Effects.empty with
                   sent := [(b.id, .opponentUpdate a.score a.isAlive)] }) := by
    simp [handleMessage, getClient, updateClient, getClientsInRoom, notifyOpponent,
          List.find?, hba, hba2, hroom, hcheat, Effects.empty]
  refine ⟨e1, e2, ?_⟩
  intro m
  rw [e1, e2]
  simp [hid]

/-- Claim C2 as stated is false on the code: the anti-cheat subtraction
wraps at int64.  Concrete two-message run: from score 0 the report
`-2^63` is a decrease, hence accepted and stored; the next report `100`
exceeds the stored score by far more than 50, yet `100 - (-2^63)` wraps
to `100 - 2^63 < 50`, so the code accepts it and stores 100 — an
anti-cheat bypass, not a rejection. -/
theorem update_score_wrap_counterexample :
    (handleMessage [⟨"a", "A", "r", false, true, 0⟩, ⟨"b", "B", "r", false, true, 0⟩]
        "a" (.updateScore (-9223372036854775808))).1 =
      [⟨"a", "A", "r", false, true, -9223372036854775808⟩,
       ⟨"b", "B", "r", false, true, 0⟩] ∧
    (100 : Int) > -9223372036854775808 + 50 ∧
    handleMessage [⟨"a", "A", "r", false, true, -9223372036854775808⟩,
        ⟨"b", "B", "r", false, true, 0⟩] "a" (.updateScore 100) =
      ([⟨"a", "A", "r", false, true, 100⟩, ⟨"b", "B", "r", false, true, 0⟩],
       { sent := [("b", .opponentUpdate 100 true)], saved := [], enqueued := [] }) := by
  refine ⟨by decide, by decide, by decide⟩

/-- Claim C10, amended: the anti-cheat gate bounds only score increases:
any report `p` at most `S + 50` whose difference `p - S` does not
underflow int64 (Go's wrapping subtraction stays exact) — in particular
any report lower than `S`, and any negative report, within int64
distance of `S` — is unconditionally accepted, stored as the
connection's new score and forwarded to the opponent, in both registry
enumeration orders; no lower bound or monotonicity requirement is
enforced.  Without the no-underflow bound the claim is false: see
`update_score_underflow_counterexample`. -/
theorem update_score_accepts_any_decrease (a b : Client) (p : Int)
    (hroom : a.roomId = b.roomId) (hid : a.id ≠ b.id)
    (hp : p ≤ a.score + 50) (hnouf : -9223372036854775808 ≤ p - a.score) :
    handleMessage [a, b] a.id (.updateScore p) =
      ([{ a with score := p }, b],
       { Effects.empty with sent := [(b.id, .opponentUpdate p a.isAlive)] }) ∧
    handleMessage [b, a] a.id (.updateScore p) =
      ([b, { a with score := p }],
       { Effects.empty with sent := [(b.id, .opponentUpdate p a.isAlive)] }) := by
  have hba : ¬ (b.id = a.id) := fun h => hid h.symm
  have hba2 : (b.id == a.id) = false := by simp [hba]
  have hwr : wrapInt64 (p - a.score) = p - a.score :=
    wrapInt64_eq_self hnouf (by omega)
  have hok : ¬ (wrapInt64 (p - a.score) > 50) := by rw [hwr]; omega
  constructor <;>
    simp [handleMessage, getClient, updateClient, getClientsInRoom, notifyOpponent,
          List.find?, hba, hba2, hroom, hok, Effects.empty]

/-- Claim C10 as stated is false on the code: with stored score
`2^63 - 1` (reachable, e.g. set by an unvalidated `PLAYER_DIED` while
the opponent is still alive) the decrease to `-100` satisfies
`p ≤ S + 50`, yet `-100 - (2^63 - 1)` wraps to `2^63 - 99 > 50`, so the
code rejects it: state unchanged, opponent re-sent the stored score. -/
theorem update_score_underflow_counterexample :
    (handleMessage [⟨"a", "A", "r", false, true, 0⟩, ⟨"b", "B", "r", false, true, 0⟩]
        "a" (.playerDied 9223372036854775807)).1 =
      [⟨"a", "A", "r", false, false, 9223372036854775807⟩,
       ⟨"b", "B", "r", false, true, 0⟩] ∧
    (-100 : Int) ≤ 9223372036854775807 + 50 ∧
    handleMessage [⟨"a", "A", "r", false, false, 9223372036854775807⟩,
        ⟨"b", "B", "r", false, true, 0⟩] "a" (.updateScore (-100)) =
      ([⟨"a", "A", "r", false, false, 9223372036854775807⟩,
        ⟨"b", "B", "r", false, true, 0⟩],
       { sent := [("b", .opponentUpdate 9223372036854775807 false)],
         saved := [], enqueued := [] }) := by
  refine ⟨by decide, by decide, by decide⟩

/-- Claim C8: `LEAVE_GAME` from a connection with no room identifier is an
idempotent no-op (no state change, no persistence, no notification); from
a connection in a room it persists the leaver's current score, sends the
opponent an `OPPONENT_LEFT` carrying that score and `isAlive = false`,
and resets only the leaver's room identifier, alive flag, score and
in-queue flag, leaving the opponent untouched — in both registry
enumeration orders. -/
theorem leave_game_resets_only_leaver (a b : Client)
    (hroom : a.roomId = b.roomId) (hr : a.roomId ≠ "") (hid : a.id ≠ b.id) :
    (∀ (cs : List Client) (cid : String) (c : Client),
        getClient cs cid = some c → c.roomId = "" →
        handleMessage cs cid .leaveGame = (cs, Effects.empty)) ∧
    handleMessage [a, b] a.id .leaveGame =
      ([{ a with roomId := "", isAlive := true, score := 0, inQueue := false }, b],
       { sent := [(b.id, .opponentLeft a.score false)],
         saved := [(a.id, a.name, a.score)], enqueued := [] }) ∧
    handleMessage [b, a] a.id .leaveGame =
      ([b, { a with roomId := "", isAlive := true, score := 0, inQueue := false }],
       { sent := [(b.id, .opponentLeft a.score false)],
         saved := [(a.id, a.name, a.score)], enqueued := [] }) := by
  have hba : ¬ (b.id = a.id) := fun h => hid h.symm
  have hba2 : (b.id == a.id) = false := by simp [hba]
  have hrb : ¬ (b.roomId = "") := fun h => hr (hroom.trans h)
  refine ⟨?_, ?_, ?_⟩
  · intro cs cid c hc hcr
    simp [handleMessage, hc, hcr]
  · simp [handleMessage, getClient, updateClient, getClientsInRoom, notifyOpponent,
          List.find?, hba, hba2, hroom, hr, hrb, Effects.empty]
  · simp [handleMessage, getClient, updateClient, getClientsInRoom, notifyOpponent,
          List.find?, hba, hba2, hroom, hr, hrb, Effects.empty]

/-- Claim C4: pairing two connections produces two `GAME_START`
notifications carrying the identical seed and identical room id with
swapped identities (each recipient's `myId`/`myName` are its own and its
`opponentId`/`opponentName` the other's), and both clients returned by
the pairing have room identifier set to the new room id, `alive = true`,
`score = 0` and `in-queue = false` (the assignments precede the sends in
`createMatch`, so the notifications are built from the already-updated
clients). -/
theorem game_start_identical_seed_swapped_ids
    (p1 p2 : Client) (roomID : String) (seed : Int) :
    (createMatch p1 p2 roomID seed).1 =
      { p1 with roomId := roomID, inQueue := false, isAlive := true, score := 0 } ∧
    (createMatch p1 p2 roomID seed).2.1 =
      { p2 with roomId := roomID, inQueue := false, isAlive := true, score := 0 } ∧
    (createMatch p1 p2 roomID seed).2.2 =
      [(p1.id, .gameStart roomID seed p1.id p1.name p2.id p2.name),
       (p2.id, .gameStart roomID seed p2.id p2.name p1.id p1.name)] :=
  ⟨rfl, rfl, rfl⟩

/-- Claim C7 is right and the code is wrong: an `UPDATE_SCORE` (resp. a
`PLAYER_DIED`) from a connection whose room identifier is empty is NOT
silently ignored — the sender's stored score (resp. score and alive flag)
is mutated and, because `GetClientsInRoom("")` matches every client with
an empty room identifier, an `OPPONENT_UPDATE` is sent to the other
roomless connection.  This theorem evaluates the handler at the failing
input. -/
theorem roomless_messages_not_ignored :
    handleMessage roomlessPair "a" (.updateScore 10) =
      ([⟨"a", "A", "", false, true, 10⟩, ⟨"b", "B", "", false, true, 0⟩],
       { sent := [("b", .opponentUpdate 10 true)], saved := [], enqueued := [] }) ∧
    handleMessage roomlessPair "a" (.playerDied 10) =
      ([⟨"a", "A", "", false, false, 10⟩, ⟨"b", "B", "", false, true, 0⟩],
       { sent := [("b", .opponentUpdate 10 false)], saved := [], enqueued := [] }) ∧
    handleMessage roomlessPair "a" (.updateScore 10) ≠ (roomlessPair, Effects.empty) := by
  refine ⟨by decide, by decide, by decide⟩

/-- Claim C6 as stated is false: on a both-dead draw the code emits
`GAME_OVER` with `reason = "draw"`, which is not an element of
`{"all_players_died", "disconnect"}`.  Concrete run: in room `"r"`,
client `a` is already dead with score 5 and client `b` dies reporting
score 5. -/
theorem gameOver_draw_reason_counterexample :
    ("a", ServerMsg.gameOver "" "draw") ∈
        (handleMessage drawRoom "b" (.playerDied 5)).2.sent ∧
    ¬("draw" = "all_players_died" ∨ "draw" = "disconnect") := by
  refine ⟨by decide, by decide⟩

/-! The matchmaker pairing loop -/

lemma runQueue_length {α : Type} :
    ∀ as : List α, (runQueue as none).length = as.length / 2 ∧
      ∀ w : α, (runQueue as (some w)).length = (as.length + 1) / 2 := by
  intro as
  induction as with
  | nil => exact ⟨by simp [runQueue], fun w => by simp [runQueue]⟩
  | cons a rest ih =>
      constructor
      · show (runQueue rest (some a)).length = (rest.length + 1) / 2
        exact ih.2 a
      · intro w
        show ((a, w) :: runQueue rest none).length = (rest.length + 1 + 1) / 2
        simp only [List.length_cons, ih.1]
        omega

lemma runQueue_get {α : Type} :
    ∀ as : List α,
      (∀ (k : Nat) (p : α × α), (runQueue as none)[k]? = some p →
        as[2 * k]? = some p.1 ∧ as[2 * k + 1]? = some p.2) ∧
      (∀ (w : α) (k : Nat) (p : α × α), (runQueue as (some w))[k]? = some p →
        (w :: as)[2 * k]? = some p.1 ∧ (w :: as)[2 * k + 1]? = some p.2) := by
  intro as
  induction as with
  | nil =>
      constructor
      · intro k p h; simp [runQueue] at h
      · intro w k p h; simp [runQueue] at h
  | cons a rest ih =>
      constructor
      · intro k p h
        exact ih.2 a k p h
      · intro w k p h
        rcases k with _ | k
        · simp only [runQueue, List.getElem?_cons_zero, Option.some.injEq] at h
          subst h
          exact ⟨by simp, by simp⟩
        · simp only [runQueue, List.getElem?_cons_succ] at h
          have hr := (ih.1) k p h
          have e1 : 2 * (k + 1) = 2 * k + 1 + 1 := by omega
          rw [e1]
          simpa using hr

/-- Claim C3: for every arrival sequence, the matchmaker creates exactly
`⌊N/2⌋` sessions; the `k`-th session (0-indexed) pairs arrivals `2k` and
`2k+1` in arrival order (strict FIFO, no skip-ahead); an arrival finding
the waiting slot empty is stored as waiting and creates no session, and
an arrival finding it occupied is paired with the stored connection and
the slot is cleared. -/
theorem matchmaker_fifo_pairing {α : Type} (arrivals : List α) :
    (runQueue arrivals none).length = arrivals.length / 2 ∧
    (∀ (k : Nat) (p : α × α), (runQueue arrivals none)[k]? = some p →
        arrivals[2 * k]? = some p.1 ∧ arrivals[2 * k + 1]? = some p.2) ∧
    (∀ (a : α) (rest : List α), runQueue (a :: rest) none = runQueue rest (some a)) ∧
    (∀ (a w : α) (rest : List α),
        runQueue (a :: rest) (some w) = (w, a) :: runQueue rest none) :=
  ⟨(runQueue_length arrivals).1, (runQueue_get arrivals).1,
   fun _ _ => rfl, fun _ _ _ => rfl⟩

/-- Witness for `matchmaker_fifo_pairing` at the concrete arrival
sequence `[10, 20, 30, 40, 50]`: two sessions, the second pairing the
third and fourth arrivals. -/
theorem matchmaker_fifo_pairing_witness :
    (runQueue [10, 20, 30, 40, 50] none).length = 2 ∧
    ([10, 20, 30, 40, 50] : List Nat)[2 * 1]? = some 30 ∧
    ([10, 20, 30, 40, 50] : List Nat)[2 * 1 + 1]? = some 40 := by
  have h := matchmaker_fifo_pairing [10, 20, 30, 40, 50]
  have hp := h.2.1 1 (30, 40) (by decide)
  exact ⟨h.1, hp.1, hp.2⟩

lemma mem_getClientsInRoom {cs : List Client} {r : String} {c : Client}
    (h : c ∈ getClientsInRoom cs r) : c ∈ cs :=
  (List.mem_filter.mp h).1

lemma ids_ne_empty_updateClient {cs : List Client}
    (hids : ∀ c ∈ cs, c.id ≠ "") (cid : String) (f : Client → Client)
    (hf : ∀ c, (f c).id = c.id) :
    ∀ c ∈ updateClient cs cid f, c.id ≠ "" := by
  intro c hc
  have hg : ∀ c : Client, ((fun c => if c.id == cid then f c else c) c).id = c.id := by
    intro c
    dsimp only
    split
    · exact hf c
    · rfl
  rcases mem_map_id_preserved _ hg hc with ⟨c0, hc0, he⟩
  rw [he]
  exact hids c0 hc0

/-- Claim C6, amended: every `GAME_OVER` the server emits carries
`winnerId = ""` exactly when the resolution is a draw, and its reason is
`"draw"` on a draw and `"all_players_died"` otherwise; in particular
`"disconnect"` is never produced (the code has no disconnect-time
`GAME_OVER`). -/
theorem gameOver_reason_and_winner (cs : List Client) (ev : Ev)
    (hids : ∀ c ∈ cs, c.id ≠ "")
    (rid w reason : String)
    (hmem : (rid, ServerMsg.gameOver w reason) ∈ (step cs ev).2.sent) :
    (reason = "draw" ∧ w = "") ∨ (reason = "all_players_died" ∧ w ≠ "") := by
  cases ev with
  | matched p1 p2 r sd =>
      simp only [step, stepMatched] at hmem
      split at hmem
      · simp [createMatch, Effects.empty] at hmem
      · simp [Effects.empty] at hmem
  | msg cid m =>
      cases m with
      | joinQueue name =>
          simp only [step, handleMessage] at hmem
          split at hmem
          · simp [Effects.empty] at hmem
          · split at hmem <;> simp [Effects.empty] at hmem
      | updateScore s =>
          simp only [step, handleMessage] at hmem
          split at hmem
          · simp [Effects.empty] at hmem
          · split at hmem <;> simp [Effects.empty, notifyOpponent] at hmem
      | leaveGame =>
          simp only [step, handleMessage] at hmem
          split at hmem
          · simp [Effects.empty] at hmem
          · split at hmem <;> simp [Effects.empty, notifyOpponent] at hmem
      | playerDied s =>
          simp only [step, handleMessage] at hmem
          split at hmem
          · simp [Effects.empty] at hmem
          · rename_i client hclient
            split at hmem
            · rw [List.mem_append] at hmem
              rcases hmem with hL | hR
              · simp [notifyOpponent] at hL
              · simp only [List.mem_map] at hR
                rcases hR with ⟨c, hc, hpair⟩
                rcases hb : (computeWinner (getClientsInRoom
                    (updateClient cs cid fun c =>
                      { c with score := s, isAlive := false })
                    ({ client with score := s, isAlive := false } : Client).roomId)).2
                    with _ | _
                · -- not a draw
                  rw [hb] at hpair
                  simp only [Bool.false_eq_true, if_false, Prod.mk.injEq,
                    ServerMsg.gameOver.injEq] at hpair
                  rcases hpair with ⟨-, hw, hre⟩
                  refine Or.inr ⟨hre.symm, ?_⟩
                  have hne : getClientsInRoom
                      (updateClient cs cid fun c =>
                        { c with score := s, isAlive := false })
                      ({ client with score := s, isAlive := false } : Client).roomId ≠ [] :=
                    List.ne_nil_of_mem hc
                  rcases computeWinner_some_mem hne with ⟨wc, hwc, hwcmem⟩
                  rw [hwc] at hw
                  simp only [Option.map_some', Option.getD_some] at hw
                  rw [← hw]
                  exact ids_ne_empty_updateClient hids cid
                    (fun c => { c with score := s, isAlive := false })
                    (fun c => rfl) wc (mem_getClientsInRoom hwcmem)
                · -- a draw
                  rw [hb] at hpair
                  simp only [if_true, Prod.mk.injEq, ServerMsg.gameOver.injEq] at hpair
                  exact Or.inl ⟨hpair.2.2.symm, hpair.2.1.symm⟩
            · simp [Effects.empty, notifyOpponent] at hmem

/-! Single-enqueue invariant -/

lemma joinQueue_blocked (cs : List Client) (cid n : String)
    (h : joinInv cid cs) :
    (handleMessage cs cid (.joinQueue n)).2.enqueued = [] := by
  rcases h with ⟨c, hc, hq, hr⟩
  simp [handleMessage, hc, hq, Effects.empty]

lemma joinQueue_establishes (cs : List Client) (cid n : String)
    (h : cid ∈ (handleMessage cs cid (.joinQueue n)).2.enqueued) :
    joinInv cid (handleMessage cs cid (.joinQueue n)).1 := by
  rcases hlook : getClient cs cid with _ | client
  · simp only [handleMessage, hlook] at h
    simp [Effects.empty] at h
  · have hcid : client.id = cid := getClient_some_id hlook
    simp only [handleMessage, hlook] at h ⊢
    by_cases hguard : (!client.inQueue && client.roomId == "") = true
    · rw [if_pos hguard]
      have hroom : client.roomId = "" := by
        simp only [Bool.and_eq_true, beq_iff_eq] at hguard
        exact hguard.2
      have hfind : getClient (updateClient cs cid (fun c =>
          { c with name := if n != "" then n else client.id, inQueue := true })) cid =
          some { client with name := if n != "" then n else client.id, inQueue := true } := by
        rw [getClient_updateClient cs cid cid
          (fun c => { c with name := if n != "" then n else client.id, inQueue := true })
          (fun c => rfl), hlook]
        simp [hcid]
      exact ⟨_, hfind, rfl, hroom⟩
    · rw [if_neg hguard] at h
      simp [Effects.empty] at h

lemma step_preserves_joinInv (cid : String) (cs : List Client) (ev : Ev)
    (hev : ∀ p1 p2 r sd, ev = Ev.matched p1 p2 r sd → cid ≠ p1 ∧ cid ≠ p2)
    (h : joinInv cid cs) : joinInv cid (step cs ev).1 := by
  rcases h with ⟨c, hc, hq, hr⟩
  have hcid : c.id = cid := getClient_some_id hc
  cases ev with
  | matched p1 p2 r sd =>
      obtain ⟨hp1, hp2⟩ := hev p1 p2 r sd rfl
      simp only [step, stepMatched]
      split
      · dsimp only
        refine ⟨c, ?_, hq, hr⟩
        rw [getClient_updateClient (updateClient cs p1 fun c => assignRoom r c) cid p2 (fun c => assignRoom r c) (fun c => rfl),
            getClient_updateClient cs cid p1 (fun c => assignRoom r c) (fun c => rfl), hc]
        simp [hcid, hp1, hp2]
      · exact ⟨c, hc, hq, hr⟩
  | msg cid' m =>
      cases m with
      | joinQueue name =>
          simp only [step, handleMessage]
          rcases hlook : getClient cs cid' with _ | client
          · simp only [hlook]
            exact ⟨c, hc, hq, hr⟩
          · simp only [hlook]
            split
            · rename_i hguard
              by_cases hcc : cid' = cid
              · subst hcc
                rw [hc] at hlook
                injection hlook with he
                subst he
                rw [hq] at hguard
                simp at hguard
              · dsimp only
                have hcc' : ¬ (cid = cid') := fun h => hcc h.symm
                refine ⟨c, ?_, hq, hr⟩
                rw [getClient_updateClient cs cid cid' (fun c => { c with name := if name != "" then name else client.id, inQueue := true }) (fun c => rfl), hc]
                simp [hcid, hcc']
            · exact ⟨c, hc, hq, hr⟩
      | updateScore s =>
          simp only [step, handleMessage]
          rcases hlook : getClient cs cid' with _ | client
          · simp only [hlook]
            exact ⟨c, hc, hq, hr⟩
          · simp only [hlook]
            split
            · exact ⟨c, hc, hq, hr⟩
            · dsimp only
              refine ⟨(if c.id == cid' then { c with score := s } else c), ?_, ?_, ?_⟩
              · rw [getClient_updateClient cs cid cid' (fun c => { c with score := s }) (fun c => rfl), hc]
                rfl
              · split <;> exact hq
              · split <;> exact hr
      | playerDied s =>
          simp only [step, handleMessage]
          rcases hlook : getClient cs cid' with _ | client
          · simp only [hlook]
            exact ⟨c, hc, hq, hr⟩
          · simp only [hlook]
            split
            · -- all dead: room cleanup map on top of the death update
              dsimp only
              have hfind : getClient
                  (List.map (fun x => if x.roomId == client.roomId then { x with roomId := "", isAlive := true, score := 0 } else x)
                    (updateClient cs cid' (fun x => { x with score := s, isAlive := false }))) cid =
                  some ((fun x => if x.roomId == client.roomId then { x with roomId := "", isAlive := true, score := 0 } else x)
                    ((fun x => if x.id == cid' then { x with score := s, isAlive := false } else x) c)) := by
                rw [getClient_map _ _ ?hg cid,
                    getClient_updateClient cs cid cid' (fun x => { x with score := s, isAlive := false }) (fun x => rfl), hc]
                case hg =>
                  intro x
                  dsimp only
                  split
                  · rfl
                  · rfl
                rfl
              refine ⟨_, hfind, ?_, ?_⟩
              · dsimp only
                split <;> split <;> exact hq
              · dsimp only
                split <;> split <;> first | rfl | exact hr
            · dsimp only
              refine ⟨(if c.id == cid' then { c with score := s, isAlive := false } else c), ?_, ?_, ?_⟩
              · rw [getClient_updateClient cs cid cid' (fun c => { c with score := s, isAlive := false }) (fun c => rfl), hc]
                rfl
              · split <;> exact hq
              · split <;> exact hr
      | leaveGame =>
          simp only [step, handleMessage]
          rcases hlook : getClient cs cid' with _ | client
          · simp only [hlook]
            exact ⟨c, hc, hq, hr⟩
          · simp only [hlook]
            split
            · exact ⟨c, hc, hq, hr⟩
            · rename_i hguard
              by_cases hcc : cid' = cid
              · subst hcc
                rw [hc] at hlook
                injection hlook with he
                subst he
                rw [hr] at hguard
                simp at hguard
              · dsimp only
                have hcc' : ¬ (cid = cid') := fun h => hcc h.symm
                refine ⟨c, ?_, hq, hr⟩
                rw [getClient_updateClient cs cid cid' (fun c => { c with roomId := "", isAlive := true, score := 0, inQueue := false }) (fun c => rfl), hc]
                simp [hcid, hcc']

lemma runState_preserves_joinInv (cid : String) :
    ∀ (evs : List Ev) (cs : List Client),
      joinInv cid cs →
      (∀ ev ∈ evs, ∀ p1 p2 r sd, ev = Ev.matched p1 p2 r sd → cid ≠ p1 ∧ cid ≠ p2) →
      joinInv cid (runState cs evs) := by
  intro evs
  induction evs with
  | nil => intro cs h _; exact h
  | cons e rest ih =>
      intro cs h hev
      exact ih _ (step_preserves_joinInv cid cs e (hev e (by simp)) h)
        (fun ev hm => hev ev (by simp [hm]))

/-- Claim C9: a connection is enqueued at most once per life-cycle: if a
`JOIN_QUEUE` from connection `cid` actually enqueues it, and after an
arbitrary further event sequence `mid` a second `JOIN_QUEUE` enqueues it
again, then `mid` must contain a matchmaking pairing event involving
`cid` — no second enqueue can occur before the connection is matched into
a room (only after which leave/resolution can clear its state). -/
theorem joinQueue_enqueued_once (cs0 : List Client) (pre mid : List Ev)
    (cid n1 n2 : String)
    (h1 : cid ∈ (step (runState cs0 pre) (.msg cid (.joinQueue n1))).2.enqueued)
    (h2 : cid ∈ (step (runState (step (runState cs0 pre)
            (.msg cid (.joinQueue n1))).1 mid) (.msg cid (.joinQueue n2))).2.enqueued) :
    ∃ ev ∈ mid, ∃ p1 p2 r sd, ev = Ev.matched p1 p2 r sd ∧ (cid = p1 ∨ cid = p2) := by
  by_contra hno
  push_neg at hno
  have hinv1 : joinInv cid (step (runState cs0 pre) (.msg cid (.joinQueue n1))).1 :=
    joinQueue_establishes (runState cs0 pre) cid n1 h1
  have hinv2 : joinInv cid (runState (step (runState cs0 pre)
      (.msg cid (.joinQueue n1))).1 mid) := by
    refine runState_preserves_joinInv cid mid _ hinv1 ?_
    intro ev hm p1 p2 r sd he
    exact hno ev hm p1 p2 r sd he
  have hblock := joinQueue_blocked (runState (step (runState cs0 pre)
      (.msg cid (.joinQueue n1))).1 mid) cid n2 hinv2
  simp only [step] at h2 hblock
  rw [hblock] at h2
  exact absurd h2 (List.not_mem_nil cid)

/-- Witness for `joinQueue_enqueued_once`: starting from two fresh
connections, `a` joins the queue (enqueued), is matched with `b`, leaves
the game, and joins the queue again (enqueued again); the interval indeed
contains the pairing event for `a`. -/
theorem joinQueue_enqueued_once_witness :
    ∃ ev ∈ [Ev.matched "a" "b" "room1" 7, Ev.msg "a" ClientMsg.leaveGame],
      ∃ p1 p2 r sd, ev = Ev.matched p1 p2 r sd ∧ ("a" = p1 ∨ "a" = p2) :=
  joinQueue_enqueued_once
    [⟨"a", "A", "", false, true, 0⟩, ⟨"b", "B", "", false, true, 0⟩]
    [] [Ev.matched "a" "b" "room1" 7, Ev.msg "a" ClientMsg.leaveGame]
    "a" "Alice" "Alice" (by decide) (by decide)

/-- Witness for `both_deaths_resolve_once`: the concrete session of the
spec's end-to-end example — `a` dies at 40, then `b` dies at 95 — has
both final scores persisted at the second death. -/
theorem both_deaths_resolve_once_witness :
    (handleMessage (handleMessage
        [⟨"a", "A", "r", false, true, 0⟩, ⟨"b", "B", "r", false, true, 0⟩]
        "a" (.playerDied 40)).1 "b" (.playerDied 95)).2.saved =
      [("a", "A", 40), ("b", "B", 95)] :=
  (both_deaths_resolve_once ⟨"a", "A", "r", false, true, 0⟩
    ⟨"b", "B", "r", false, true, 0⟩ 40 95 rfl rfl rfl (by decide)
    (by decide)).1.2.2.2.1

/-- Witness for `update_score_rejected`: with last accepted score 40, a
report of 200 (delta 160 > 50) leaves the state unchanged and re-sends
the opponent the last valid score. -/
theorem update_score_rejected_witness :
    handleMessage [⟨"a", "A", "r", false, true, 40⟩, ⟨"b", "B", "r", false, true, 0⟩]
        "a" (.updateScore 200) =
      ([⟨"a", "A", "r", false, true, 40⟩, ⟨"b", "B", "r", false, true, 0⟩],
       { sent := [("b", .opponentUpdate 40 true)], saved := [], enqueued := [] }) :=
  (update_score_rejected ⟨"a", "A", "r", false, true, 40⟩
    ⟨"b", "B", "r", false, true, 0⟩ 200 rfl (by decide) (by decide) (by decide)).1

/-- Witness for `winner_highest_score`: scores 120 and 95 — the
120-scorer is named winner in the payload sent to both. -/
theorem winner_highest_score_witness :
    ∃ reason,
      ("a", ServerMsg.gameOver "a" reason) ∈
        (handleMessage [⟨"a", "A", "r", false, false, 120⟩,
          ⟨"b", "B", "r", false, true, 0⟩] "b" (.playerDied 95)).2.sent ∧
      ("b", ServerMsg.gameOver "a" reason) ∈
        (handleMessage [⟨"a", "A", "r", false, false, 120⟩,
          ⟨"b", "B", "r", false, true, 0⟩] "b" (.playerDied 95)).2.sent :=
  (winner_highest_score ⟨"a", "A", "r", false, false, 120⟩
    ⟨"b", "B", "r", false, true, 0⟩ 95 rfl rfl (by decide) (by decide)
    _ (Or.inl rfl)).2

/-- Witness for `gameOver_reason_and_winner` at the draw emission of
`drawRoom`. -/
theorem gameOver_reason_and_winner_witness :
    ("draw" = "draw" ∧ "" = "") ∨
      ("draw" = "all_players_died" ∧ ("" : String) ≠ "") :=
  gameOver_reason_and_winner drawRoom (.msg "b" (.playerDied 5)) (by decide)
    "a" "" "draw" (by decide)

/-- Witness for `leave_game_resets_only_leaver`: a dead player with score
33 leaves; the score is persisted, the opponent notified, only the leaver
reset. -/
theorem leave_game_resets_only_leaver_witness :
    handleMessage [⟨"a", "A", "r", false, false, 33⟩, ⟨"b", "B", "r", false, true, 10⟩]
        "a" .leaveGame =
      ([⟨"a", "A", "", false, true, 0⟩, ⟨"b", "B", "r", false, true, 10⟩],
       { sent := [("b", .opponentLeft 33 false)], saved := [("a", "A", 33)],
         enqueued := [] }) :=
  (leave_game_resets_only_leaver ⟨"a", "A", "r", false, false, 33⟩
    ⟨"b", "B", "r", false, true, 10⟩ rfl (by decide) (by decide)).2.1

/-- Witness for `update_score_accepts_any_decrease`: a negative report
(-5) from current score 100 is accepted, stored and forwarded. -/
theorem update_score_accepts_any_decrease_witness :
    handleMessage [⟨"a", "A", "r", false, true, 100⟩, ⟨"b", "B", "r", false, true, 0⟩]
        "a" (.updateScore (-5)) =
      ([⟨"a", "A", "r", false, true, -5⟩, ⟨"b", "B", "r", false, true, 0⟩],
       { sent := [("b", .opponentUpdate (-5) true)], saved := [], enqueued := [] }) :=
  (update_score_accepts_any_decrease ⟨"a", "A", "r", false, true, 100⟩
    ⟨"b", "B", "r", false, true, 0⟩ (-5) rfl (by decide) (by decide) (by decide)).1
